import Mathlib

/-!
Verification of the Swiss-system tournament module (`tournament.py`).

The persistent store is modelled as a value of type `DB`: the `player`
table (rows in insertion order), the `match` table (rows in insertion
order), and the serial sequence that assigns player ids.  Each Python
function executes exactly one SQL statement against the store, and is
embedded as a pure function on `DB`: reads return their result, writes
return the updated store.

`playerStandings` runs a query with two correlated subquery counts per
player, ordered by wins descending; it is embedded with a stable merge
sort (the order among equal win counts is unspecified by the SQL, and
the stable sort is one deterministic realisation of it).
-/

namespace Tournament

/-- A row of the `player` table: store-assigned serial id and a name. -/
structure Player where
  id : Nat
  name : String
deriving DecidableEq

/-- A row of the `match` table: winner and loser player ids. -/
structure MatchRow where
  winner : Nat
  loser : Nat
deriving DecidableEq

/-- The persistent store: `player` table, `match` table, and the serial
sequence for `player.id` (next value to assign; restarted on truncate). -/
structure DB where
  players : List Player
  matchRows : List MatchRow
  nextId : Nat
deriving DecidableEq

/-- The store right after schema provisioning: both tables empty, the
serial sequence at 1. -/
def initialDB : DB := ⟨[], [], 1⟩

/-- `deleteMatches()`: `TRUNCATE match RESTART IDENTITY`. -/
def deleteMatches (db : DB) : DB := { db with matchRows := [] }

/-- `deletePlayers()`: `TRUNCATE player RESTART IDENTITY CASCADE`; the
cascade also empties `match`, and the serial sequence restarts. -/
def deletePlayers (_db : DB) : DB := ⟨[], [], 1⟩

/-- `countPlayers()`: `SELECT count(*) from player`. -/
def countPlayers (db : DB) : Nat := db.players.length

/-- `registerPlayer(name)`: `INSERT INTO player (name) VALUES (%s)`;
the store assigns the serial id. -/
def registerPlayer (name : String) (db : DB) : DB :=
  { db with
      players := db.players ++ [⟨db.nextId, name⟩]
      nextId := db.nextId + 1 }

/-- `reportMatch(winner, loser)`:
`INSERT INTO match (winner, loser) VALUES (%s, %s)`. -/
def reportMatch (winner loser : Nat) (db : DB) : DB :=
  { db with matchRows := db.matchRows ++ [⟨winner, loser⟩] }

/-- One row of the result of `playerStandings()`. -/
structure Standing where
  id : Nat
  name : String
  wins : Nat
  «matches» : Nat
deriving DecidableEq

/-- The `wins` correlated subquery:
`SELECT COUNT(*) FROM match WHERE match.winner = player.id`. -/
def winCount (db : DB) (p : Nat) : Nat :=
  (db.matchRows.filter (fun m => m.winner == p)).length

/-- The `matches` correlated subquery:
`SELECT COUNT(*) FROM match WHERE match.loser = player.id OR match.winner = player.id`. -/
def matchCount (db : DB) (p : Nat) : Nat :=
  (db.matchRows.filter (fun m => m.loser == p || m.winner == p)).length

/-- The row the standings query produces for one player. -/
def standingOf (db : DB) (p : Player) : Standing :=
  ⟨p.id, p.name, winCount db p.id, matchCount db p.id⟩

/-- The ordering `ORDER BY wins DESC` sorts by: row `a` may precede row
`b` when `b.wins ≤ a.wins`. -/
def winsDescOrder (a b : Standing) : Prop := b.wins ≤ a.wins

instance : DecidableRel winsDescOrder := fun a b => Nat.decLe b.wins a.wins

instance : IsTotal Standing winsDescOrder := ⟨fun a b => Nat.le_total b.wins a.wins⟩

instance : IsTrans Standing winsDescOrder := ⟨fun _ _ _ h1 h2 => Nat.le_trans h2 h1⟩

/-- `playerStandings()`: one row per `player` row with the two correlated
counts, ordered by wins descending.  SQL leaves the order among equal win
counts unspecified; a stable sort is the deterministic realisation chosen
here. -/
def playerStandings (db : DB) : List Standing :=
  (db.players.map (standingOf db)).insertionSort winsDescOrder

/-- One element of the result of `swissPairings()`. -/
structure Pairing where
  id1 : Nat
  name1 : String
  id2 : Nat
  name2 : String
deriving DecidableEq

/-- The pairing loop of `swissPairings()`:
`for p1, p2 in zip(standings[::2], standings[1::2])` appends
`(p1[0], p1[1], p2[0], p2[1])`; a trailing unmatched entry is dropped
by `zip`. -/
def pair : List Standing → List Pairing
  | [] => []
  | [_] => []
  | p1 :: p2 :: rest => ⟨p1.id, p1.name, p2.id, p2.name⟩ :: pair rest

/-- `swissPairings()`: reads the standings, then runs the pairing loop. -/
def swissPairings (db : DB) : List Pairing :=
  pair (playerStandings db)

/-- The operations that mutate the store, for reachability statements. -/
inductive Op where
  | register (name : String)
  | record (winner loser : Nat)
  | delMatches
  | delPlayers
deriving DecidableEq

/-- Apply one mutating operation to the store. -/
def applyOp (db : DB) : Op → DB
  | .register n => registerPlayer n db
  | .record w l => reportMatch w l db
  | .delMatches => deleteMatches db
  | .delPlayers => deletePlayers db

/-- The store reached from a fresh schema by a sequence of operations. -/
def runOps (ops : List Op) : DB := ops.foldl applyOp initialDB

example : playerStandings (runOps [.register "A", .register "B", .record 1 2]) =
    [⟨1, "A", 1, 1⟩, ⟨2, "B", 0, 1⟩] := by decide

example : swissPairings (runOps [.register "A", .register "B"]) =
    [⟨1, "A", 2, "B"⟩] := by decide

/-! ### Helper lemmas about the standings query -/

/-- The standings rows are a permutation of one row per `player` row. -/
theorem playerStandings_perm (db : DB) :
    (playerStandings db).Perm (db.players.map (standingOf db)) :=
  List.perm_insertionSort winsDescOrder _

/-- The standings have exactly one row per registered player. -/
theorem playerStandings_length (db : DB) :
    (playerStandings db).length = db.players.length := by
  rw [(playerStandings_perm db).length_eq, List.length_map]

/-- Every standings row is the row of some registered player. -/
theorem mem_playerStandings {db : DB} {e : Standing}
    (h : e ∈ playerStandings db) : ∃ p ∈ db.players, e = standingOf db p := by
  have h2 := (playerStandings_perm db).mem_iff.mp h
  obtain ⟨p, hp, he⟩ := List.mem_map.mp h2
  exact ⟨p, hp, he.symm⟩

/-- The standings are sorted by wins descending. -/
theorem playerStandings_sorted (db : DB) :
    (playerStandings db).Pairwise (fun a b => b.wins ≤ a.wins) :=
  List.sorted_insertionSort winsDescOrder _

/-- Recording a match appends one row to the `match` table and leaves the
`player` table and the serial sequence alone. -/
theorem reportMatch_db (winner loser : Nat) (db : DB) :
    reportMatch winner loser db =
      ⟨db.players, db.matchRows ++ [⟨winner, loser⟩], db.nextId⟩ :=
  rfl

/-- Effect of one recorded match on the `wins` count of any player. -/
theorem winCount_reportMatch (db : DB) (w l q : Nat) :
    winCount (reportMatch w l db) q =
      winCount db q + (if q = w then 1 else 0) := by
  simp only [winCount, reportMatch, List.filter_append, List.length_append]
  by_cases h : q = w
  · subst h
    simp
  · have : (w == q) = false := by
      simp [beq_iff_eq]
      exact fun hw => h hw.symm
    simp [List.filter, this, h]

/-- Effect of one recorded match on the `matches` count of any player. -/
theorem matchCount_reportMatch (db : DB) (w l q : Nat) :
    matchCount (reportMatch w l db) q =
      matchCount db q + (if q = w ∨ q = l then 1 else 0) := by
  simp only [matchCount, reportMatch, List.filter_append, List.length_append]
  by_cases h : q = w ∨ q = l
  · have : (l == q || w == q) = true := by
      rcases h with h | h <;> subst h <;> simp
    simp [List.filter, this, h]
  · push_neg at h
    have : (l == q || w == q) = false := by
      simp [beq_iff_eq]
      exact ⟨fun hl => h.2 hl.symm, fun hw => h.1 hw.symm⟩
    simp [List.filter, this, h]

/-- A win is counted among the rows counted as played matches. -/
theorem winCount_le_matchCount (db : DB) (q : Nat) :
    winCount db q ≤ matchCount db q := by
  unfold winCount matchCount
  induction db.matchRows with
  | nil => simp
  | cons m t ih =>
    simp only [List.filter_cons]
    by_cases h : (m.winner == q) = true
    · have h2 : (m.loser == q || m.winner == q) = true := by simp [h]
      rw [if_pos h, if_pos h2]
      simpa using ih
    · rw [if_neg h]
      by_cases h2 : (m.loser == q || m.winner == q) = true
      · rw [if_pos h2]
        exact Nat.le_trans ih (Nat.le_succ _)
      · rw [if_neg h2]
        exact ih

/-- With an empty `match` table both correlated counts are zero. -/
theorem standingOf_no_matches {db : DB} (h : db.matchRows = []) (p : Player) :
    standingOf db p = ⟨p.id, p.name, 0, 0⟩ := by
  simp [standingOf, winCount, matchCount, h]

/-! ### Helper lemmas about the pairing loop -/

/-- The pairing loop emits one element per two standings rows. -/
theorem pair_length : (l : List Standing) → (pair l).length = l.length / 2
  | [] => rfl
  | [_] => by simp [pair]
  | a :: b :: t => by
    simp only [pair, List.length_cons, pair_length t]
    omega

/-- The element at rank `i` of the pairing output joins the standings rows
at ranks `2*i` and `2*i+1`. -/
theorem pair_getElem : (l : List Standing) → (i : Nat) → (a b : Standing) →
    l[2 * i]? = some a → l[2 * i + 1]? = some b →
    (pair l)[i]? = some ⟨a.id, a.name, b.id, b.name⟩
  | [], _, _, _, ha, _ => by simp at ha
  | [_], _, _, _, _, hb => by
    rw [List.getElem?_cons_succ] at hb
    simp at hb
  | x :: y :: _, 0, a, b, ha, hb => by
    have hx : x = a := by simpa using ha
    have hy : y = b := by simpa using hb
    subst hx
    subst hy
    simp [pair]
  | x :: y :: t, i + 1, a, b, ha, hb => by
    have h2 : 2 * (i + 1) = 2 * i + 1 + 1 := by omega
    rw [h2, List.getElem?_cons_succ, List.getElem?_cons_succ] at ha
    rw [h2, List.getElem?_cons_succ, List.getElem?_cons_succ] at hb
    have := pair_getElem t i a b ha hb
    simpa [pair] using this

/-- Flattening the pairing output recovers the ids and names of the first
`2 * (length / 2)` standings rows, in order. -/
theorem pair_flatMap : (l : List Standing) →
    (pair l).flatMap (fun q => [(q.id1, q.name1), (q.id2, q.name2)]) =
      (l.take (2 * (l.length / 2))).map (fun e => (e.id, e.name))
  | [] => rfl
  | [_] => by simp [pair]
  | a :: b :: t => by
    have h2 : 2 * ((a :: b :: t).length / 2) = 2 * (t.length / 2) + 1 + 1 := by
      simp only [List.length_cons]
      omega
    rw [h2, List.take_succ_cons, List.take_succ_cons]
    simp [pair, pair_flatMap t]

/-- Flattening the pairing output to ids recovers the ids of the first
`2 * (length / 2)` standings rows, in order. -/
theorem pair_flatMap_id : (l : List Standing) →
    (pair l).flatMap (fun q => [q.id1, q.id2]) =
      (l.take (2 * (l.length / 2))).map Standing.id
  | [] => rfl
  | [_] => by simp [pair]
  | a :: b :: t => by
    have h2 : 2 * ((a :: b :: t).length / 2) = 2 * (t.length / 2) + 1 + 1 := by
      simp only [List.length_cons]
      omega
    rw [h2, List.take_succ_cons, List.take_succ_cons]
    simp [pair, pair_flatMap_id t]

/-- Recording a match turns the standings rows into the same rows with the
winner's wins and matches and the loser's matches bumped, up to reordering. -/
theorem playerStandings_reportMatch (db : DB) (w l : Nat) :
    (playerStandings (reportMatch w l db)).Perm
      ((playerStandings db).map (fun e =>
        (⟨e.id, e.name,
          e.wins + (if e.id = w then 1 else 0),
          e.«matches» + (if e.id = w ∨ e.id = l then 1 else 0)⟩ : Standing))) := by
  have h1 : (playerStandings (reportMatch w l db)).Perm
      (db.players.map (standingOf (reportMatch w l db))) :=
    playerStandings_perm _
  have h2 := (playerStandings_perm db).map (fun e : Standing =>
    (⟨e.id, e.name,
      e.wins + (if e.id = w then 1 else 0),
      e.«matches» + (if e.id = w ∨ e.id = l then 1 else 0)⟩ : Standing))
  rw [List.map_map] at h2
  have h3 : db.players.map (standingOf (reportMatch w l db)) =
      db.players.map ((fun e : Standing =>
        (⟨e.id, e.name,
          e.wins + (if e.id = w then 1 else 0),
          e.«matches» + (if e.id = w ∨ e.id = l then 1 else 0)⟩ : Standing)) ∘
        standingOf db) := by
    apply List.map_congr_left
    intro p _
    simp [standingOf, Function.comp, winCount_reportMatch, matchCount_reportMatch]
  rw [h3] at h1
  exact h1.trans h2.symm

/-! ### Concrete stores and standings used as evaluation points -/

/-- A store with one registered player. -/
def dbOnePlayer : DB := runOps [.register "A"]

/-- A store with two registered players. -/
def dbTwoPlayers : DB := runOps [.register "A", .register "B"]

/-- A store with two registered players and one recorded match. -/
def dbRecorded : DB := runOps [.register "A", .register "B", .record 1 2]

/-- The four-row standings sequence used by the spec's pairing example. -/
def exampleStandings : List Standing :=
  [⟨1, "A", 1, 1⟩, ⟨2, "B", 1, 1⟩, ⟨3, "C", 0, 1⟩, ⟨4, "D", 0, 1⟩]

/-- A three-row (odd) standings sequence. -/
def standingsOdd : List Standing :=
  [⟨1, "A", 2, 2⟩, ⟨2, "B", 1, 2⟩, ⟨3, "C", 0, 2⟩]

/-- Two standings sequences with the same ids and names in the same order
but different win and match counts. -/
def standingsX : List Standing := [⟨1, "A", 5, 9⟩, ⟨2, "B", 0, 0⟩]

/-- See `standingsX`. -/
def standingsY : List Standing := [⟨1, "A", 0, 2⟩, ⟨2, "B", 3, 3⟩]

/-! ### The claims -/

/-- Claim C1: `playerStandings` returns one (id, name, wins, matches) row
per registered player, where wins counts the recorded matches won by that
player and matches counts the recorded matches in which the player is the
winner or the loser, and the returned sequence is ordered by wins
descending. -/
theorem playerStandings_rows_and_order (db : DB) :
    (playerStandings db).Perm (db.players.map (fun p =>
      ⟨p.id, p.name,
        (db.matchRows.filter (fun m => m.winner == p.id)).length,
        (db.matchRows.filter (fun m => m.loser == p.id || m.winner == p.id)).length⟩)) ∧
    (playerStandings db).Pairwise (fun a b => b.wins ≤ a.wins) :=
  ⟨playerStandings_perm db, playerStandings_sorted db⟩

/-- Claim C2: the pairing loop, applied to a standings sequence treated as
already ranked, partitions it into consecutive non-overlapping pairs: it
returns one pair per two rows, its element at rank i joins the rows at
ranks 2i and 2i+1, and on an even-length input the flattened output is
exactly the input's ids and names in order; in particular, on the spec's
four-row example it returns exactly the two stated pairs. -/
theorem pair_consecutive_pairs (l : List Standing) (h : l.length % 2 = 0) :
    ((pair l).length = l.length / 2 ∧
      (∀ i a b, l[2 * i]? = some a → l[2 * i + 1]? = some b →
        (pair l)[i]? = some ⟨a.id, a.name, b.id, b.name⟩) ∧
      (pair l).flatMap (fun q => [(q.id1, q.name1), (q.id2, q.name2)]) =
        l.map (fun e => (e.id, e.name))) ∧
    pair exampleStandings = [⟨1, "A", 2, "B"⟩, ⟨3, "C", 4, "D"⟩] := by
  refine ⟨⟨pair_length l, fun i a b ha hb => pair_getElem l i a b ha hb, ?_⟩, by decide⟩
  rw [pair_flatMap l]
  have h2 : 2 * (l.length / 2) = l.length := by omega
  rw [h2, List.take_length]

/-- Witness for C2: the theorem applied to the spec's four-row example,
with its rank-0 output pair read back through the rank characterisation. -/
theorem pair_consecutive_pairs_witness :
    exampleStandings.length % 2 = 0 ∧
    (pair exampleStandings)[0]? = some ⟨1, "A", 2, "B"⟩ :=
  ⟨by decide,
    (pair_consecutive_pairs exampleStandings (by decide)).1.2.1 0
      ⟨1, "A", 1, 1⟩ ⟨2, "B", 1, 1⟩ (by decide) (by decide)⟩

/-- Claim C3: with an even number of registered players, `swissPairings`
returns exactly half that many pairs, and the ids across the returned
pairs are a permutation of the registered ids — each registered id appears
exactly once, none omitted and none duplicated. -/
theorem swissPairings_partition (db : DB) (h : countPlayers db % 2 = 0) :
    (swissPairings db).length = countPlayers db / 2 ∧
    ((swissPairings db).flatMap (fun q => [q.id1, q.id2])).Perm
      (db.players.map Player.id) := by
  have hc : countPlayers db = db.players.length := rfl
  rw [hc] at h
  constructor
  · rw [swissPairings, pair_length, playerStandings_length, hc]
  · rw [swissPairings, pair_flatMap_id]
    have h2 : 2 * ((playerStandings db).length / 2) = (playerStandings db).length := by
      rw [playerStandings_length]
      omega
    rw [h2, List.take_length]
    have h3 := (playerStandings_perm db).map Standing.id
    rw [List.map_map] at h3
    exact h3

/-- Witness for C3 on a store with two registered players. -/
theorem swissPairings_partition_witness :
    countPlayers dbTwoPlayers % 2 = 0 ∧
    ((swissPairings dbTwoPlayers).length = countPlayers dbTwoPlayers / 2 ∧
      ((swissPairings dbTwoPlayers).flatMap (fun q => [q.id1, q.id2])).Perm
        (dbTwoPlayers.players.map Player.id)) :=
  ⟨by decide, swissPairings_partition dbTwoPlayers (by decide)⟩

/-- Claim C4: with no recorded matches, the standings have exactly one row
per registered player, and every row shows zero wins and zero matches. -/
theorem playerStandings_no_matches (db : DB) (h : db.matchRows = []) :
    (playerStandings db).length = countPlayers db ∧
    ∀ e ∈ playerStandings db, e.wins = 0 ∧ e.«matches» = 0 := by
  refine ⟨playerStandings_length db, fun e he => ?_⟩
  obtain ⟨p, _, rfl⟩ := mem_playerStandings he
  rw [standingOf_no_matches h p]
  exact ⟨rfl, rfl⟩

/-- Witness for C4 on a store with two registered players and no recorded
matches, reading back the row of player 1. -/
theorem playerStandings_no_matches_witness :
    dbTwoPlayers.matchRows = [] ∧
    (⟨1, "A", 0, 0⟩ : Standing).wins = 0 ∧ (⟨1, "A", 0, 0⟩ : Standing).«matches» = 0 :=
  ⟨by decide,
    (playerStandings_no_matches dbTwoPlayers (by decide)).2 ⟨1, "A", 0, 0⟩ (by decide)⟩

/-- Counterexample to claim C5 as stated: the claim quantifies over every
pair of ids, but at w = l = 1 on a store with one registered player and no
recorded matches it demands both that the winner's wins rise by 1 and that
the loser's wins stay unchanged; the code raises player 1's wins from 0 to
1, so the "loser's wins unchanged" conjunct fails. -/
theorem reportMatch_equal_ids_cex :
    playerStandings dbOnePlayer = [⟨1, "A", 0, 0⟩] ∧
    playerStandings (reportMatch 1 1 dbOnePlayer) = [⟨1, "A", 1, 1⟩] ∧
    ¬ winCount (reportMatch 1 1 dbOnePlayer) 1 = winCount dbOnePlayer 1 := by
  decide

/-- Claim C5, amended to distinct ids: after recording a match between two
distinct ids w ≠ l, the winner's wins and matches each rise by 1, the
loser's matches rises by 1 with wins unchanged, every other id's counts
are unchanged, and the standings rows are exactly the previous rows with
those deltas applied, up to reordering. -/
theorem reportMatch_standings_update (db : DB) (w l : Nat) (hwl : w ≠ l) :
    winCount (reportMatch w l db) w = winCount db w + 1 ∧
    matchCount (reportMatch w l db) w = matchCount db w + 1 ∧
    winCount (reportMatch w l db) l = winCount db l ∧
    matchCount (reportMatch w l db) l = matchCount db l + 1 ∧
    (∀ q, q ≠ w → q ≠ l →
      winCount (reportMatch w l db) q = winCount db q ∧
      matchCount (reportMatch w l db) q = matchCount db q) ∧
    (playerStandings (reportMatch w l db)).Perm
      ((playerStandings db).map (fun e =>
        (⟨e.id, e.name,
          e.wins + (if e.id = w then 1 else 0),
          e.«matches» + (if e.id = w ∨ e.id = l then 1 else 0)⟩ : Standing))) := by
  refine ⟨?_, ?_, ?_, ?_, ?_, playerStandings_reportMatch db w l⟩
  · rw [winCount_reportMatch, if_pos rfl]
  · rw [matchCount_reportMatch, if_pos (Or.inl rfl)]
  · rw [winCount_reportMatch, if_neg (Ne.symm hwl), Nat.add_zero]
  · rw [matchCount_reportMatch, if_pos (Or.inr rfl)]
  · intro q hqw hql
    constructor
    · rw [winCount_reportMatch, if_neg hqw, Nat.add_zero]
    · rw [matchCount_reportMatch, if_neg (by simp [hqw, hql]), Nat.add_zero]

/-- Witness for C5 (amended) on a store with two registered players,
recording a win of player 1 over player 2. -/
theorem reportMatch_standings_update_witness :
    (1 : Nat) ≠ 2 ∧
    winCount (reportMatch 1 2 dbTwoPlayers) 1 = winCount dbTwoPlayers 1 + 1 :=
  ⟨by decide, (reportMatch_standings_update dbTwoPlayers 1 2 (by decide)).1⟩

/-- Claim C6: deleting all matches leaves the number of registered players
and the player table itself (ids and names) unchanged, and afterwards
every standings row shows zero wins and zero matches. -/
theorem deleteMatches_keeps_players_resets_counts (db : DB) :
    countPlayers (deleteMatches db) = countPlayers db ∧
    (deleteMatches db).players = db.players ∧
    ∀ e ∈ playerStandings (deleteMatches db), e.wins = 0 ∧ e.«matches» = 0 := by
  refine ⟨rfl, rfl, fun e he => ?_⟩
  obtain ⟨p, _, rfl⟩ := mem_playerStandings he
  rw [standingOf_no_matches rfl p]
  exact ⟨rfl, rfl⟩

/-- Witness for C6 on a store with two registered players and one recorded
match, reading back the reset row of player 1. -/
theorem deleteMatches_keeps_players_resets_counts_witness :
    countPlayers (deleteMatches dbRecorded) = countPlayers dbRecorded ∧
    (⟨1, "A", 0, 0⟩ : Standing).wins = 0 ∧ (⟨1, "A", 0, 0⟩ : Standing).«matches» = 0 :=
  ⟨(deleteMatches_keeps_players_resets_counts dbRecorded).1,
    (deleteMatches_keeps_players_resets_counts dbRecorded).2.2 ⟨1, "A", 0, 0⟩ (by decide)⟩

/-- Claim C7: in every store reachable from a fresh schema by any sequence
of register, record, and bulk-delete operations, every standings row
satisfies wins ≤ matches. -/
theorem reachable_wins_le_matches (ops : List Op) :
    ∀ e ∈ playerStandings (runOps ops), e.wins ≤ e.«matches» := by
  intro e he
  obtain ⟨p, _, rfl⟩ := mem_playerStandings he
  exact winCount_le_matchCount _ _

/-- Witness for C7 on the store reached by registering one player and
recording a self-match. -/
theorem reachable_wins_le_matches_witness :
    (⟨1, "A", 1, 1⟩ : Standing).wins ≤ (⟨1, "A", 1, 1⟩ : Standing).«matches» :=
  reachable_wins_le_matches [.register "A", .record 1 1] ⟨1, "A", 1, 1⟩ (by decide)

/-- Claim C8: the pairing loop is deterministic in, and a pure function
of, the standings sequence alone: its output is fully determined by the
ids and names of the rows in their given order, so two runs on the same
standings — or on any two standings agreeing row by row on id and name,
whatever the rest of the store holds — return the same pairs. -/
theorem pair_deterministic : (l1 l2 : List Standing) →
    l1.map (fun e => (e.id, e.name)) = l2.map (fun e => (e.id, e.name)) →
    pair l1 = pair l2
  | [], [], _ => rfl
  | [], _ :: _, h => by simp at h
  | _ :: _, [], h => by simp at h
  | [_], [_], _ => by simp [pair]
  | [_], _ :: _ :: _, h => by simp at h
  | _ :: _ :: _, [_], h => by simp at h
  | a1 :: b1 :: t1, a2 :: b2 :: t2, h => by
    simp only [List.map_cons, List.cons.injEq, Prod.mk.injEq] at h
    obtain ⟨⟨hia, hna⟩, ⟨hib, hnb⟩, ht⟩ := h
    simp [pair, hia, hna, hib, hnb, pair_deterministic t1 t2 ht]

/-- Witness for C8 on two standings with the same ids and names but
different win and match counts. -/
theorem pair_deterministic_witness :
    standingsX.map (fun e => (e.id, e.name)) =
      standingsY.map (fun e => (e.id, e.name)) ∧
    pair standingsX = pair standingsY :=
  ⟨by decide, pair_deterministic standingsX standingsY (by decide)⟩

/-- Claim C9: recording a match with winner equal to loser is accepted
with no local validation and appends the outcome row; afterwards that
player's wins and matches each rise by exactly 1 — the self-match is
counted once in matches, since matches counts rows where the player is
winner OR loser — and the standings rows update accordingly. -/
theorem reportMatch_self_counts (db : DB) (p : Nat) :
    (reportMatch p p db).matchRows = db.matchRows ++ [⟨p, p⟩] ∧
    winCount (reportMatch p p db) p = winCount db p + 1 ∧
    matchCount (reportMatch p p db) p = matchCount db p + 1 ∧
    (playerStandings (reportMatch p p db)).Perm
      ((playerStandings db).map (fun e =>
        (⟨e.id, e.name,
          e.wins + (if e.id = p then 1 else 0),
          e.«matches» + (if e.id = p then 1 else 0)⟩ : Standing))) := by
  refine ⟨rfl, ?_, ?_, ?_⟩
  · rw [winCount_reportMatch, if_pos rfl]
  · rw [matchCount_reportMatch, if_pos (Or.inl rfl)]
  · have h1 := playerStandings_reportMatch db p p
    have h2 : (playerStandings db).map (fun e =>
        (⟨e.id, e.name,
          e.wins + (if e.id = p then 1 else 0),
          e.«matches» + (if e.id = p ∨ e.id = p then 1 else 0)⟩ : Standing)) =
        (playerStandings db).map (fun e =>
        (⟨e.id, e.name,
          e.wins + (if e.id = p then 1 else 0),
          e.«matches» + (if e.id = p then 1 else 0)⟩ : Standing)) := by
      apply List.map_congr_left
      intro e _
      simp
    rw [h2] at h1
    exact h1

/-- Claim C10: on an odd-length standings sequence the pairing loop
neither fails nor assigns a bye: it returns exactly (N-1)/2 pairs
covering, in rank order, exactly the first N-1 rows, silently omitting the
last (lowest-ranked) row. -/
theorem pair_odd_drops_last (l : List Standing) (h : l.length % 2 = 1) :
    (pair l).length = (l.length - 1) / 2 ∧
    (pair l).flatMap (fun q => [(q.id1, q.name1), (q.id2, q.name2)]) =
      (l.take (l.length - 1)).map (fun e => (e.id, e.name)) := by
  constructor
  · rw [pair_length]
    omega
  · rw [pair_flatMap]
    have h2 : 2 * (l.length / 2) = l.length - 1 := by omega
    rw [h2]

/-- Witness for C10 on a three-row standings sequence. -/
theorem pair_odd_drops_last_witness :
    standingsOdd.length % 2 = 1 ∧
    ((pair standingsOdd).length = (standingsOdd.length - 1) / 2 ∧
      (pair standingsOdd).flatMap (fun q => [(q.id1, q.name1), (q.id2, q.name2)]) =
        (standingsOdd.take (standingsOdd.length - 1)).map (fun e => (e.id, e.name))) :=
  ⟨by decide, pair_odd_drops_last standingsOdd (by decide)⟩

end Tournament
